import Mathlib

/-!
Verification of the sensor-oracle web client's orchestration logic.

Shallow embedding of the TypeScript sources:
 * `src/src/lib/azureDocumentIntelligence.ts` (status normalization, evidence
   load/save with SAS refresh, `pollJobUntil`),
 * `src/src/components/DecoderGenerator.tsx` (workflow navigation state,
   manufacturer step handlers, extraction polling, decoder refinement),
 * `src/src/components/PdfDecoderGenerator.tsx` (`downloadFile`),
 * `src/src/components/ModelDBInsertion.tsx` (`fixMalformedJson`,
   `normalizeNumbers`).

JavaScript `string | null` values are modelled as `Option String` with `none`
for `null`/`undefined`; JavaScript truthiness of such a value (`null`,
`undefined` and `""` are falsy) is `jsStrTruthy`.  The network is modelled as
an oracle (`HttpEnv` / `PollEnv`) indexed by the number of calls made so far,
so that consecutive calls may observe different responses.
-/

/-- JavaScript truthiness for a `string | null | undefined` value:
`null`/`undefined` and the empty string are falsy. -/
def jsStrTruthy : Option String → Bool
  | none => false
  | some s => s ≠ ""

/-- JavaScript `a || b` on `string | null | undefined` values:
returns `a` when `a` is truthy, otherwise `b`. -/
def jsOrOpt (a b : Option String) : Option String :=
  if jsStrTruthy a then a else b

/-- `JobResponse` from `src/src/lib/azureDocumentIntelligence.ts` (the
normalized job shape).  The `status` field is the already-normalized string
status; `error` is `string | null`. -/
structure JobResponse where
  ok : Bool
  id : String
  status : String
  error : Option String
  evidenceReadUrl : Option String
  evidenceWriteUrl : Option String
  evidenceMdUrl : Option String
  evidenceTxtUrl : Option String
  resultJsonUrl : Option String
  fullDecoderUrl : Option String
  consoleDecoderUrl : Option String
deriving Repr, DecidableEq

/-- The argument of `mapStatusCode`: `number | string` in the source.  Legacy
numeric codes are whole numbers, modelled as `Int`. -/
inductive StatusValue where
  | num (n : Int)
  | str (s : String)
deriving Repr, DecidableEq

/-- `mapStatusCode` from `src/src/lib/azureDocumentIntelligence.ts`: a string
is returned unchanged; a numeric code is looked up in the status map, with
`"Failed"` when the lookup misses (`statusMap[statusCode] || "Failed"`; every
value in the map is a non-empty string, hence truthy). -/
def mapStatusCode : StatusValue → String
  | .str s => s
  | .num n =>
      if n = 0 then "Uploaded"
      else if n = 1 then "Uploaded"
      else if n = 2 then "Extracting"
      else if n = 3 then "Extracted"
      else if n = 4 then "Generating"
      else if n = 5 then "Done"
      else if n = 6 then "Failed"
      else "Failed"

/-- An HTTP response as observed by the client: `ok`, `status` and the body
text (for GET) — the fields of the `fetch` `Response` the source reads. -/
structure FetchResponse where
  ok : Bool
  status : Nat
  statusText : String
  body : String

/-- Oracle for the network: the `n`-th `fetch` of a URL and the `n`-th
`getJob` call (which can throw, hence `Except`).  Indexing by the call count
lets consecutive requests observe different responses. -/
structure HttpEnv where
  fetch : Nat → String → FetchResponse
  getJob : Nat → String → Except String JobResponse

/-- `loadEvidenceWithRefresh` from `src/src/lib/azureDocumentIntelligence.ts`.
`nFetch`/`nJob` count the fetch and getJob calls made so far; the result pairs
the outcome with the updated counts.  On a 403 with `retryCount = 0` the job
is re-fetched once and the load retried with `retryCount + 1`. -/
def loadEvidenceWithRefresh (env : HttpEnv) (job : JobResponse) (retryCount : Nat)
    (nFetch nJob : Nat) : Except String String × Nat × Nat :=
  let readUrl := jsOrOpt job.evidenceReadUrl (jsOrOpt job.evidenceMdUrl job.evidenceTxtUrl)
  if jsStrTruthy readUrl = false then
    (.error "No evidence URL available", nFetch, nJob)
  else
    let response := env.fetch nFetch (readUrl.getD "")
    if response.ok = false then
      if h : response.status = 403 ∧ retryCount = 0 then
        match env.getJob nJob job.id with
        | .error e => (.error e, nFetch + 1, nJob + 1)
        | .ok refreshedJob =>
            loadEvidenceWithRefresh env refreshedJob (retryCount + 1) (nFetch + 1) (nJob + 1)
      else
        (.error "Failed to load evidence", nFetch + 1, nJob)
    else
      (.ok response.body, nFetch + 1, nJob)
termination_by 1 - retryCount
decreasing_by omega

/-- `saveEvidence` from `src/src/lib/azureDocumentIntelligence.ts`: one PUT of
the content; on 403 the job is re-fetched and the PUT retried exactly once
with the refreshed write URL.  The content-type chosen from the URL's `.md`
extension only populates request headers, which the network oracle does not
observe, so it is omitted here. -/
def saveEvidence (env : HttpEnv) (jobId evidenceWriteUrl content : String)
    (nFetch nJob : Nat) : Except String Unit × Nat × Nat :=
  let response := env.fetch nFetch evidenceWriteUrl
  if response.ok = false then
    if response.status = 403 then
      match env.getJob nJob jobId with
      | .error e => (.error e, nFetch + 1, nJob + 1)
      | .ok refreshedJob =>
          if jsStrTruthy refreshedJob.evidenceWriteUrl = false then
            (.error "Could not refresh write URL", nFetch + 1, nJob + 1)
          else
            let retryResponse := env.fetch (nFetch + 1) (refreshedJob.evidenceWriteUrl.getD "")
            if retryResponse.ok = false then
              (.error "Failed to save after refresh", nFetch + 2, nJob + 1)
            else
              (.ok (), nFetch + 2, nJob + 1)
    else
      (.error ("Save failed: " ++ response.statusText), nFetch + 1, nJob)
  else
    (.ok (), nFetch + 1, nJob)

/-- Outcome of `downloadFile`: early return on a missing URL, the catch-branch
toast, or a successful download of the named file. -/
inductive DownloadResult where
  | noUrl
  | caught (msg : String)
  | downloaded (filename : String)
deriving Repr, DecidableEq

/-- `downloadFile` from `src/src/components/PdfDecoderGenerator.tsx`.  On a
403 with `retryCount = 0` while the workflow step is `"done"`, the job is
re-fetched and the download retried once with the matching refreshed URL; any
other failure (including the second 403) throws `"Download failed"`, caught by
the surrounding `catch`. -/
def downloadFile (env : HttpEnv) (stateStep stateJobId : String)
    (jobData : Option JobResponse) (url : Option String) (filename : String)
    (retryCount : Nat) (nFetch nJob : Nat) : DownloadResult × Nat × Nat :=
  if jsStrTruthy url = false then
    (.noUrl, nFetch, nJob)
  else
    let response := env.fetch nFetch (url.getD "")
    if response.ok = false then
      if h : response.status = 403 ∧ retryCount = 0 ∧ stateStep = "done" then
        match env.getJob nJob stateJobId with
        | .error e => (.caught e, nFetch + 1, nJob + 1)
        | .ok refreshedJob =>
            let urlType :=
              if url = jobData.bind (fun j => j.resultJsonUrl) then refreshedJob.resultJsonUrl
              else if url = jobData.bind (fun j => j.fullDecoderUrl) then refreshedJob.fullDecoderUrl
              else refreshedJob.consoleDecoderUrl
            if jsStrTruthy urlType then
              downloadFile env stateStep stateJobId jobData urlType filename
                (retryCount + 1) (nFetch + 1) (nJob + 1)
            else
              (.caught "Download failed", nFetch + 1, nJob + 1)
      else
        (.caught "Download failed", nFetch + 1, nJob)
    else
      (.downloaded filename, nFetch + 1, nJob)
termination_by 1 - retryCount
decreasing_by omega

/-- Result of the `pollJobUntil` promise within a bounded number of ticks:
it resolves, rejects at one of the three distinct `reject` sites (timeout
check, job-failure check, catch block), or is still pending with the next
tick scheduled (`fuel` exhausted in the model). -/
inductive PollResult where
  | resolved (job : JobResponse)
  | timeoutRejected
  | failureRejected (msg : String)
  | errorRejected (msg : String)
  | pending
deriving Repr, DecidableEq

/-- Oracle for a polling loop: `time k` is `Date.now()` observed at the start
of the `k`-th tick, and `getJob k` the outcome of the `k`-th `getJob` call
(`Except.error` models a thrown fetch exception). -/
structure PollEnv where
  time : Nat → Nat
  getJob : Nat → Except String JobResponse

/-- `pollJobUntil` from `src/src/lib/azureDocumentIntelligence.ts`, one tick
per fuel unit starting at tick `k`.  Each tick: reject on
`Date.now() - startTime > timeoutMs`; otherwise `getJob` (a thrown exception
is caught and rejects the promise); resolve when `condition job`; otherwise
reject when `job.status === "Failed" || job.error` (with
`job.error || "Job failed"` as message); otherwise schedule the next tick.
The `onUpdate` UI callback has no effect on control flow and is omitted. -/
def pollJobUntil (env : PollEnv) (condition : JobResponse → Bool)
    (timeoutMs startTime : Nat) : Nat → Nat → PollResult
  | 0, _ => .pending
  | fuel + 1, k =>
    if env.time k - startTime > timeoutMs then .timeoutRejected
    else
      match env.getJob k with
      | .error e => .errorRejected e
      | .ok job =>
        if condition job then .resolved job
        else if job.status = "Failed" ∨ jsStrTruthy job.error then
          .failureRejected (if jsStrTruthy job.error then job.error.getD "" else "Job failed")
        else pollJobUntil env condition timeoutMs startTime fuel (k + 1)

/-- One tick of `startPollingForExtraction` in
`src/src/components/DecoderGenerator.tsx`. -/
inductive ExtractionTickResult where
  | stopTimeout
  | stopSuccess (text : String)
  | stopFailure (msg : String)
  | keepPolling (loggedError : Option String)
deriving Repr, DecidableEq

/-- One tick of the extraction polling loop (`poll` inside
`startPollingForExtraction`, `src/src/components/DecoderGenerator.tsx`).
`now`/`startTime` are `Date.now()` and `pollStartTimeRef.current` (non-null
while polling); `getJobResult` is the outcome of `getJob` and `loadEvidence`
the outcome of `loadEvidenceWithRefresh` for a given job.  A thrown fetch
exception is caught, logged via `console.error`, and the tick ends with the
interval still scheduled (`keepPolling`). -/
def extractionPollTick (now startTime : Nat)
    (getJobResult : Except String JobResponse)
    (loadEvidence : JobResponse → Except String String) : ExtractionTickResult :=
  if now - startTime > 300000 then .stopTimeout
  else
    match getJobResult with
    | .error e => .keepPolling (some e)
    | .ok job =>
      let hasEvidence := jsOrOpt job.evidenceReadUrl (jsOrOpt job.evidenceMdUrl job.evidenceTxtUrl)
      if jsStrTruthy hasEvidence then
        match loadEvidence job with
        | .ok text => .stopSuccess text
        | .error e => .keepPolling (some e)
      else if job.status = "Failed" ∨ jsStrTruthy job.error then
        .stopFailure (if jsStrTruthy job.error then job.error.getD "" else "Failed to extract document")
      else
        .keepPolling none

/-- `WORKFLOW_STEPS` from `src/src/components/DecoderGenerator.tsx`. -/
def WORKFLOW_STEPS : List String :=
  ["select_manufacturer", "upload_doc", "extracting", "view_doc",
   "step1_composite", "step2_rules", "step3_examples", "step4_reconcile",
   "step5_decoder", "step6_repair", "step7_feedback"]

/-- The client-local workflow state of `DecoderGenerator`: the two navigation
indices plus the accumulated artifact fields (each a React string state,
initially `""`). -/
structure WorkflowState where
  manufacturer : String
  currentIndex : Nat
  furthestCompletedIndex : Nat
  documentation : String
  compositeSpec : String
  rulesBlock : String
  examplesTablesMd : String
  decoderCode : String
  feedbackMarkdown : String
  refinementNotes : String
  deviceProfile : String
  deviceName : String
  safeClassName : String
  deviceFormat : String
deriving Repr, DecidableEq

/-- The state as created at manufacturer selection / after `resetWorkflow`
(indices 0, every artifact field empty). -/
def initialWorkflowState (manufacturer : String) : WorkflowState :=
  { manufacturer := manufacturer
    currentIndex := 0
    furthestCompletedIndex := 0
    documentation := ""
    compositeSpec := ""
    rulesBlock := ""
    examplesTablesMd := ""
    decoderCode := ""
    feedbackMarkdown := ""
    refinementNotes := ""
    deviceProfile := ""
    deviceName := ""
    safeClassName := ""
    deviceFormat := "" }

/-- `goToStep` from `src/src/components/DecoderGenerator.tsx`: clamps the
index into `[0, WORKFLOW_STEPS.length - 1]`, sets the current index, and when
`markComplete` is set advances the furthest-completed marker if the new index
exceeds it. -/
def goToStep (s : WorkflowState) (index : Int) (markComplete : Bool) : WorkflowState :=
  let clampedIndex : Nat := (max 0 (min index ((WORKFLOW_STEPS.length : Int) - 1))).toNat
  { s with
    currentIndex := clampedIndex
    furthestCompletedIndex :=
      if markComplete = true ∧ clampedIndex > s.furthestCompletedIndex then clampedIndex
      else s.furthestCompletedIndex }

/-- `findIndexByStep` (`WORKFLOW_STEPS.indexOf`, `-1` when absent). -/
def findIndexByStep (targetStep : String) : Int :=
  match WORKFLOW_STEPS.findIdx? (· = targetStep) with
  | some i => (i : Int)
  | none => -1

/-- `goToPreviousStep`: steps back one index when possible and not
processing. -/
def goToPreviousStep (s : WorkflowState) (isProcessing : Bool) : WorkflowState :=
  if s.currentIndex > 0 ∧ isProcessing = false then
    goToStep s ((s.currentIndex : Int) - 1) false
  else s

/-- `goToNextStep`: moves forward one index only when still below the last
step, not processing, and the next index is within the already completed
range (`nextIndex <= furthestCompletedIndex`). -/
def goToNextStep (s : WorkflowState) (isProcessing : Bool) : WorkflowState :=
  if s.currentIndex < WORKFLOW_STEPS.length - 1 ∧ isProcessing = false then
    let nextIndex := s.currentIndex + 1
    if nextIndex ≤ s.furthestCompletedIndex then goToStep s (nextIndex : Int) false
    else s
  else s

/-- Navigation events observable in the workflow: a successful step
completion (`goToStep (findIndexByStep target) { markComplete: true }` as
performed by every step handler on success), the previous/next buttons, and a
progress-stepper click (enabled only for `stepIndex ≤ furthestCompletedIndex`
and while not processing). -/
inductive NavEvent where
  | complete (target : String)
  | next (isProcessing : Bool)
  | prev (isProcessing : Bool)
  | stepperClick (i : Nat) (isProcessing : Bool)
deriving Repr, DecidableEq

/-- Apply one navigation event to the workflow state. -/
def applyNavEvent (s : WorkflowState) : NavEvent → WorkflowState
  | .complete target => goToStep s (findIndexByStep target) true
  | .next isProcessing => goToNextStep s isProcessing
  | .prev isProcessing => goToPreviousStep s isProcessing
  | .stepperClick i isProcessing =>
      if i ≤ s.furthestCompletedIndex ∧ isProcessing = false then goToStep s (i : Int) false
      else s

/-- Run a sequence of navigation events from the initial state. -/
def runNavEvents (manufacturer : String) (es : List NavEvent) : WorkflowState :=
  es.foldl applyNavEvent (initialWorkflowState manufacturer)

/-- The navigation invariant of the spec:
`currentStep ≤ furthestCompletedStep ≤ lastStepIndex`. -/
def navInv (s : WorkflowState) : Prop :=
  s.currentIndex ≤ s.furthestCompletedIndex ∧
  s.furthestCompletedIndex ≤ WORKFLOW_STEPS.length - 1

/-- Response body of `GenerateDraginoRules` (the API may answer with the
PascalCase or the camelCase field; absent fields are `none`). -/
structure DraginoRulesResult where
  RulesBlock : Option String
  rulesBlock : Option String
deriving Repr, DecidableEq

/-- Response body of `GenerateDraginoDecoder`. -/
structure DraginoDecoderResult where
  DecoderCode : Option String
  decoderCode : Option String
deriving Repr, DecidableEq

/-- Success path of `runDraginoStep1GenerateRules`
(`src/src/components/DecoderGenerator.tsx`): store
`result.RulesBlock || result.rulesBlock` into the rules-block field and
complete step `step2_rules`.  A fully absent payload is stored as `""`
(an undefined React string state renders as empty). -/
def runDraginoStep1GenerateRules (s : WorkflowState) (result : DraginoRulesResult) :
    WorkflowState :=
  let s1 := { s with rulesBlock := (jsOrOpt result.RulesBlock result.rulesBlock).getD "" }
  goToStep s1 (findIndexByStep "step2_rules") true

/-- Success path of `runDraginoStep2GenerateDecoder`: store
`result.DecoderCode || result.decoderCode` into the decoder-code field and
complete step `step5_decoder`. -/
def runDraginoStep2GenerateDecoder (s : WorkflowState) (result : DraginoDecoderResult) :
    WorkflowState :=
  let s1 := { s with decoderCode := (jsOrOpt result.DecoderCode result.decoderCode).getD "" }
  goToStep s1 (findIndexByStep "step5_decoder") true

/-- Response body of the `RefineDecoder` endpoint. -/
structure RefineResult where
  RefinedDecoderCode : Option String
  refinedDecoderCode : Option String
  RefinementNotes : Option String
  refinementNotes : Option String
deriving Repr, DecidableEq

/-- Success path of `refineDecoderWithFeedback`
(`src/src/components/DecoderGenerator.tsx`): early no-op when no decoder code
exists; otherwise overwrite the decoder code with
`result.RefinedDecoderCode || result.refinedDecoderCode` and the refinement
notes with `result.RefinementNotes || result.refinementNotes || ""`.  No
navigation call is made. -/
def refineDecoderWithFeedback (s : WorkflowState) (result : RefineResult) : WorkflowState :=
  if s.decoderCode = "" then s
  else
    { s with
      decoderCode := (jsOrOpt result.RefinedDecoderCode result.refinedDecoderCode).getD ""
      refinementNotes :=
        (jsOrOpt (jsOrOpt result.RefinementNotes result.refinementNotes) (some "")).getD "" }

/-- JavaScript regex `\s` (whitespace class), restricted to the ASCII
whitespace characters that occur in this data. -/
def jsWhitespace (c : Char) : Bool :=
  c = ' ' ∨ c = '\t' ∨ c = '\n' ∨ c = '\r'

/-- First character of `[a-zA-Z_][a-zA-Z0-9_]*`. -/
def identStartChar (c : Char) : Bool :=
  (c ≥ 'a' ∧ c ≤ 'z') ∨ (c ≥ 'A' ∧ c ≤ 'Z') ∨ c = '_'

/-- JavaScript regex `\w` = `[a-zA-Z0-9_]`, also the tail of an identifier. -/
def wordChar (c : Char) : Bool :=
  identStartChar c ∨ (c ≥ '0' ∧ c ≤ '9')

/-- JavaScript `String.prototype.trim`: strip whitespace from both ends. -/
def jsTrim (l : List Char) : List Char :=
  ((l.dropWhile jsWhitespace).reverse.dropWhile jsWhitespace).reverse

/-- Match `\s*` `[a-zA-Z_][a-zA-Z0-9_]*` `\s*` `:` at the head of `l`,
returning the leading whitespace, the identifier, the whitespace before the
colon, and the rest after the colon.  (Greedy matching without backtracking is
exact here: shortening the identifier leaves an identifier character next,
which matches neither `\s` nor `:`.) -/
def tryQuoteKeyAt (l : List Char) : Option (List Char × List Char × List Char × List Char) :=
  let (ws1, r1) := l.span jsWhitespace
  match r1 with
  | c :: r2 =>
    if identStartChar c then
      let (idRest, r3) := r2.span wordChar
      let (ws2, r4) := r3.span jsWhitespace
      match r4 with
      | ':' :: r5 => some (ws1, c :: idRest, ws2, r5)
      | _ => none
    else none
  | [] => none

/-- Step 1 of `fixMalformedJson` (`src/src/components/ModelDBInsertion.tsx`):
`fixed.replace(/([\x7b,]\s*)([a-zA-Z_][a-zA-Z0-9_]*)(\s*:)/g, quoted)` —
quote bare property names after a brace or comma.  The scan replicates the
global regex: leftmost match, continue after the matched text.  `fuel` is the
input length (each step consumes at least one character). -/
def quoteKeysGo : Nat → List Char → List Char
  | 0, l => l
  | _ + 1, [] => []
  | fuel + 1, c :: rest =>
    if c = '{' ∨ c = ',' then
      match tryQuoteKeyAt rest with
      | some (ws1, id, ws2, r) =>
          c :: ws1 ++ '"' :: id ++ '"' :: ws2 ++ ':' :: quoteKeysGo fuel r
      | none => c :: quoteKeysGo fuel rest
    else c :: quoteKeysGo fuel rest

/-- Step 2 of `fixMalformedJson`:
`fixed.replace(/"\s*([a-zA-Z_][a-zA-Z0-9_]*)\s*:/g, closeQuoted)` — close a
property name that has an opening quote but no closing quote (the whitespace
of the match is dropped by the replacement `"$1":`). -/
def closeQuoteKeysGo : Nat → List Char → List Char
  | 0, l => l
  | _ + 1, [] => []
  | fuel + 1, c :: rest =>
    if c = '"' then
      match tryQuoteKeyAt rest with
      | some (_, id, _, r) => '"' :: id ++ '"' :: ':' :: closeQuoteKeysGo fuel r
      | none => c :: closeQuoteKeysGo fuel rest
    else c :: closeQuoteKeysGo fuel rest

/-- Match `\s*\n\s*(")` (the tail of the step-3 regex): a whitespace run
containing at least one newline, followed by a double quote; returns the rest
after the quote. -/
def step3Suffix (l : List Char) : Option (List Char) :=
  let (ws, r) := l.span jsWhitespace
  if ws.contains '\n' then
    match r with
    | '"' :: r2 => some r2
    | _ => none
  else none

/-- Match one alternative of
`([a-zA-Z0-9_]+|"[^"]*"|true|false|null|\d+\.?\d*)` followed by `\s*\n\s*(")`
at the head of `l`, returning the captured value and the rest after the
quote.  The `true|false|null` branch is subsumed by the word branch, and
greedy matching without backtracking is exact: after shortening a word or
digit run the next character is a word character or a dot, which can start
neither `\s*\n` nor `"`. -/
def tryStep3At (l : List Char) : Option (List Char × List Char) :=
  match l with
  | [] => none
  | c :: rest =>
    if wordChar c then
      let (w, r1) := (c :: rest).span wordChar
      match step3Suffix r1 with
      | some r2 => some (w, r2)
      | none =>
        if c ≥ '0' ∧ c ≤ '9' then
          let (d1, r3) := (c :: rest).span (fun d => d ≥ '0' ∧ d ≤ '9')
          match r3 with
          | '.' :: r4 =>
            let (d2, r5) := r4.span (fun d => d ≥ '0' ∧ d ≤ '9')
            match step3Suffix r5 with
            | some r6 => some (d1 ++ '.' :: d2, r6)
            | none => none
          | _ => none
        else none
    else if c = '"' then
      let (body, r1) := rest.span (fun ch => ch ≠ '"')
      match r1 with
      | '"' :: r2 =>
        match step3Suffix r2 with
        | some r3 => some ('"' :: body ++ ['"'], r3)
        | none => none
      | _ => none
    else none

/-- Step 3 of `fixMalformedJson`:
`fixed.replace(/([a-zA-Z0-9_]+|"[^"]*"|true|false|null|\d+\.?\d*)\s*\n\s*(")/g, withComma)`
— insert a missing comma between adjacent properties (replacement
`$1,\n$2`). -/
def insertMissingCommasGo : Nat → List Char → List Char
  | 0, l => l
  | _ + 1, [] => []
  | fuel + 1, c :: rest =>
    match tryStep3At (c :: rest) with
    | some (matched, r) => matched ++ ',' :: '\n' :: '"' :: insertMissingCommasGo fuel r
    | none => c :: insertMissingCommasGo fuel rest

/-- Case-insensitive literal match (regex `i` flag): returns the rest of the
input after the literal. -/
def matchCI : List Char → List Char → Option (List Char)
  | [], l => some l
  | _ :: _, [] => none
  | t :: ts, c :: cs => if t.toLower = c.toLower then matchCI ts cs else none

/-- Match `\s*<ty>\b` (case-insensitive) at the head of `l` (the part after a
colon), returning the rest after the type word. -/
def tryTypeAt (ty : List Char) (l : List Char) : Option (List Char) :=
  let (_, r1) := l.span jsWhitespace
  match matchCI ty r1 with
  | some r2 =>
    match r2 with
    | [] => some r2
    | c :: _ => if wordChar c then none else some r2
  | none => none

/-- Step 4 of `fixMalformedJson`, one type:
`fixed.replace(new RegExp(":\\s*" ++ ty ++ "\\b", "gi"), ": " ++ value)` —
replace a data-type placeholder after a colon with an example value. -/
def replaceTypePlaceholderGo (ty value : List Char) : Nat → List Char → List Char
  | 0, l => l
  | _ + 1, [] => []
  | fuel + 1, c :: rest =>
    if c = ':' then
      match tryTypeAt ty rest with
      | some r => ':' :: ' ' :: value ++ replaceTypePlaceholderGo ty value fuel r
      | none => ':' :: replaceTypePlaceholderGo ty value fuel rest
    else c :: replaceTypePlaceholderGo ty value fuel rest

/-- The `typeReplacements` table of `fixMalformedJson`, in object-literal
insertion order. -/
def typeReplacements : List (List Char × List Char) :=
  [("string".toList, "\"example\"".toList),
   ("double".toList, "0.0".toList),
   ("float".toList, "0.0".toList),
   ("integer".toList, "0".toList),
   ("int".toList, "0".toList),
   ("boolean".toList, "false".toList),
   ("bool".toList, "false".toList),
   ("number".toList, "0".toList)]

/-- Step 5 of `fixMalformedJson`:
`fixed.replace(/,(\s*[\x7d\]])/g, "$1")` — drop a trailing comma before a
closing brace or bracket. -/
def removeTrailingCommasGo : Nat → List Char → List Char
  | 0, l => l
  | _ + 1, [] => []
  | fuel + 1, c :: rest =>
    if c = ',' then
      let (ws, r1) := rest.span jsWhitespace
      match r1 with
      | b :: r2 =>
        if b = '}' ∨ b = ']' then ws ++ b :: removeTrailingCommasGo fuel r2
        else ',' :: removeTrailingCommasGo fuel rest
      | [] => ',' :: removeTrailingCommasGo fuel rest
    else c :: removeTrailingCommasGo fuel rest

/-- `fixMalformedJson` from `src/src/components/ModelDBInsertion.tsx`: trim,
then the five sequential global replacements. -/
def fixMalformedJson (text : String) : String :=
  let fixed0 := jsTrim text.toList
  let fixed1 := quoteKeysGo fixed0.length fixed0
  let fixed2 := closeQuoteKeysGo fixed1.length fixed1
  let fixed3 := insertMissingCommasGo fixed2.length fixed2
  let fixed4 := typeReplacements.foldl
    (fun acc tv => replaceTypePlaceholderGo tv.1 tv.2 acc.length acc) fixed3
  let fixed5 := removeTrailingCommasGo fixed4.length fixed4
  String.mk fixed5

/-- `normalizeNumbers` from `src/src/components/ModelDBInsertion.tsx`:
`str.replace(/(\d),(\d)/g, "$1.$2")`.  The global regex consumes both digits
of a match, so the scan continues after the second digit. -/
def normalizeNumbersGo : List Char → List Char
  | a :: b :: c :: rest =>
    if (a ≥ '0' ∧ a ≤ '9') ∧ b = ',' ∧ (c ≥ '0' ∧ c ≤ '9') then
      a :: '.' :: c :: normalizeNumbersGo rest
    else a :: normalizeNumbersGo (b :: c :: rest)
  | a :: rest => a :: normalizeNumbersGo rest
  | [] => []

/-- String wrapper for `normalizeNumbersGo`. -/
def normalizeNumbers (str : String) : String :=
  String.mk (normalizeNumbersGo str.toList)

/-- Modelled from the spec wording of C8 ("rewrites every digit-comma-digit
occurrence by replacing the comma with a period"): replace each comma whose
immediate neighbours in the input are digits, without consuming the
neighbours.  Used to compare the claimed behaviour with the source
behaviour. -/
def claimNormalizeEveryOccurrence (s : String) : String :=
  let l := s.toList
  String.mk ((List.range l.length).map (fun i =>
    let c := l.getD i ' '
    if c = ',' ∧ 1 ≤ i ∧ (l.getD (i - 1) ' ').isDigit ∧ (l.getD (i + 1) ' ').isDigit
    then '.' else c))

/-- A JSON value.  A number literal is kept as
`num mantissa scale exp10` denoting `mantissa / 10^scale * 10^exp10`
(so `0.0` is `num 0 1 0`). -/
inductive JsonVal where
  | null
  | bool (b : Bool)
  | num (mantissa : Int) (scale : Nat) (exp10 : Int)
  | str (s : String)
  | arr (elems : List JsonVal)
  | obj (fields : List (String × JsonVal))
deriving Repr

/-- JSON whitespace (space, tab, line feed, carriage return). -/
def jsonWs (c : Char) : Bool :=
  c = ' ' ∨ c = '\t' ∨ c = '\n' ∨ c = '\r'

/-- Hexadecimal digit value. -/
def hexVal (c : Char) : Option Nat :=
  if c ≥ '0' ∧ c ≤ '9' then some (c.toNat - '0'.toNat)
  else if c ≥ 'a' ∧ c ≤ 'f' then some (c.toNat - 'a'.toNat + 10)
  else if c ≥ 'A' ∧ c ≤ 'F' then some (c.toNat - 'A'.toNat + 10)
  else none

/-- Four hexadecimal digits of a `\u` escape. -/
def parseHex4 (l : List Char) : Option (Nat × List Char) :=
  match l with
  | a :: b :: c :: d :: r =>
    match hexVal a, hexVal b, hexVal c, hexVal d with
    | some x1, some x2, some x3, some x4 => some (((x1 * 16 + x2) * 16 + x3) * 16 + x4, r)
    | _, _, _, _ => none
  | _ => none

/-- Body of a JSON string after the opening quote, with escape sequences
(`\u` outside the surrogate range becomes the corresponding character);
returns the content and the rest after the closing quote. -/
def parseJsonStringBody : Nat → List Char → Option (List Char × List Char)
  | 0, _ => none
  | _ + 1, [] => none
  | fuel + 1, c :: rest =>
    if c = '"' then some ([], rest)
    else if c = '\\' then
      match rest with
      | [] => none
      | e :: rest2 =>
        if e = '"' ∨ e = '\\' ∨ e = '/' then
          (parseJsonStringBody fuel rest2).map (fun p => (e :: p.1, p.2))
        else if e = 'b' then
          (parseJsonStringBody fuel rest2).map (fun p => ('\x08' :: p.1, p.2))
        else if e = 'f' then
          (parseJsonStringBody fuel rest2).map (fun p => ('\x0C' :: p.1, p.2))
        else if e = 'n' then
          (parseJsonStringBody fuel rest2).map (fun p => ('\n' :: p.1, p.2))
        else if e = 'r' then
          (parseJsonStringBody fuel rest2).map (fun p => ('\r' :: p.1, p.2))
        else if e = 't' then
          (parseJsonStringBody fuel rest2).map (fun p => ('\t' :: p.1, p.2))
        else if e = 'u' then
          match parseHex4 rest2 with
          | some (n, rest3) =>
            if n < 0xd800 then
              (parseJsonStringBody fuel rest3).map (fun p => (Char.ofNat n :: p.1, p.2))
            else none
          | none => none
        else none
    else if c.toNat < 32 then none
    else (parseJsonStringBody fuel rest).map (fun p => (c :: p.1, p.2))

/-- Numeric value of a digit run. -/
def digitsToNat (ds : List Char) : Nat :=
  ds.foldl (fun acc c => acc * 10 + (c.toNat - '0'.toNat)) 0

/-- Build the `JsonVal.num` for sign, integer digits, fraction digits and
decimal exponent. -/
def mkJsonNum (neg : Bool) (intDigits fracDigits : List Char) (exp10 : Int) : JsonVal :=
  let m : Nat := digitsToNat (intDigits ++ fracDigits)
  .num (if neg then -(m : Int) else (m : Int)) fracDigits.length exp10

/-- Optional exponent part of a JSON number. -/
def parseJsonExpPart (neg : Bool) (intDigits fracDigits : List Char) (l : List Char) :
    Option (JsonVal × List Char) :=
  match l with
  | c :: r =>
    if c = 'e' ∨ c = 'E' then
      let (esign, r1) : Int × List Char :=
        match r with
        | '+' :: rr => (1, rr)
        | '-' :: rr => (-1, rr)
        | _ => (1, r)
      let (expDigits, r2) := r1.span (fun d => d ≥ '0' ∧ d ≤ '9')
      if expDigits = [] then none
      else some (mkJsonNum neg intDigits fracDigits (esign * (digitsToNat expDigits : Int)), r2)
    else some (mkJsonNum neg intDigits fracDigits 0, l)
  | [] => some (mkJsonNum neg intDigits fracDigits 0, l)

/-- A JSON number literal: `-? (0 | [1-9][0-9]*) (\.[0-9]+)? ([eE][+-]?[0-9]+)?`. -/
def parseJsonNumber (l : List Char) : Option (JsonVal × List Char) :=
  let (neg, l1) : Bool × List Char :=
    match l with
    | '-' :: r => (true, r)
    | _ => (false, l)
  let (intDigits, l2) := l1.span (fun d => d ≥ '0' ∧ d ≤ '9')
  if intDigits = [] then none
  else if intDigits.length > 1 ∧ intDigits.headD '0' = '0' then none
  else
    match l2 with
    | '.' :: r =>
      let (fracDigits, l3) := r.span (fun d => d ≥ '0' ∧ d ≤ '9')
      if fracDigits = [] then none
      else parseJsonExpPart neg intDigits fracDigits l3
    | _ => parseJsonExpPart neg intDigits [] l2

mutual
/-- A JSON value (ECMA-404 grammar; fuel bounds the recursion depth and is
chosen large enough for the inputs considered). -/
def parseJsonValue : Nat → List Char → Option (JsonVal × List Char)
  | 0, _ => none
  | fuel + 1, l =>
    match l.dropWhile jsonWs with
    | 'n' :: 'u' :: 'l' :: 'l' :: r => some (.null, r)
    | 't' :: 'r' :: 'u' :: 'e' :: r => some (.bool true, r)
    | 'f' :: 'a' :: 'l' :: 's' :: 'e' :: r => some (.bool false, r)
    | '"' :: r =>
      match parseJsonStringBody (r.length + 1) r with
      | some (s, r2) => some (.str (String.mk s), r2)
      | none => none
    | '[' :: r =>
      match r.dropWhile jsonWs with
      | ']' :: r2 => some (.arr [], r2)
      | _ =>
        match parseJsonElements fuel r with
        | some (es, r2) => some (.arr es, r2)
        | none => none
    | '{' :: r =>
      match r.dropWhile jsonWs with
      | '}' :: r2 => some (.obj [], r2)
      | _ =>
        match parseJsonMembers fuel r with
        | some (fs, r2) => some (.obj fs, r2)
        | none => none
    | rest => parseJsonNumber rest
termination_by structural fuel => fuel

/-- Comma-separated array elements up to the closing bracket. -/
def parseJsonElements : Nat → List Char → Option (List JsonVal × List Char)
  | 0, _ => none
  | fuel + 1, l =>
    match parseJsonValue fuel l with
    | some (v, r) =>
      match r.dropWhile jsonWs with
      | ',' :: r2 =>
        match parseJsonElements fuel r2 with
        | some (vs, r3) => some (v :: vs, r3)
        | none => none
      | ']' :: r2 => some ([v], r2)
      | _ => none
    | none => none
termination_by structural fuel => fuel

/-- Comma-separated object members up to the closing brace. -/
def parseJsonMembers : Nat → List Char → Option (List (String × JsonVal) × List Char)
  | 0, _ => none
  | fuel + 1, l =>
    match l.dropWhile jsonWs with
    | '"' :: r =>
      match parseJsonStringBody (r.length + 1) r with
      | some (k, r2) =>
        match r2.dropWhile jsonWs with
        | ':' :: r3 =>
          match parseJsonValue fuel r3 with
          | some (v, r4) =>
            match r4.dropWhile jsonWs with
            | ',' :: r5 =>
              match parseJsonMembers fuel r5 with
              | some (fs, r6) => some ((String.mk k, v) :: fs, r6)
              | none => none
            | '}' :: r5 => some ([(String.mk k, v)], r5)
            | _ => none
          | none => none
        | _ => none
      | none => none
    | _ => none
termination_by structural fuel => fuel
end

/-- Modelled from the spec: `JSON.parse` as used by `handleFixJson` to check
that the repaired text "parses as valid JSON" — a parser for the ECMA-404
grammar returning the parsed value, `none` on invalid input. -/
def parseJson (s : String) : Option JsonVal :=
  let l := s.toList
  match parseJsonValue (2 * l.length + 2) l with
  | some (v, r) => if r.dropWhile jsonWs = [] then some v else none
  | none => none

/-- A job whose evidence and artifact URLs are all present (used to
instantiate the theorems at concrete inputs). -/
def sampleJob : JobResponse :=
  { ok := true
    id := "job-1"
    status := "Extracted"
    error := none
    evidenceReadUrl := some "https://blob/evidence?sig=1"
    evidenceWriteUrl := some "https://blob/evidence.md?sig=2"
    evidenceMdUrl := some "https://blob/evidence.md?sig=3"
    evidenceTxtUrl := some "https://blob/evidence.txt?sig=4"
    resultJsonUrl := some "https://blob/result.json?sig=5"
    fullDecoderUrl := some "https://blob/full.cs?sig=6"
    consoleDecoderUrl := some "https://blob/console.cs?sig=7" }

/-- A job that reports failure. -/
def failedJob : JobResponse :=
  { ok := true
    id := "job-2"
    status := "Failed"
    error := some "boom"
    evidenceReadUrl := none
    evidenceWriteUrl := none
    evidenceMdUrl := none
    evidenceTxtUrl := none
    resultJsonUrl := none
    fullDecoderUrl := none
    consoleDecoderUrl := none }

/-- A network in which every fetch answers HTTP 403 and every job re-fetch
succeeds. -/
def allForbiddenEnv : HttpEnv :=
  { fetch := fun _ _ => { ok := false, status := 403, statusText := "Forbidden", body := "" }
    getJob := fun _ _ => .ok sampleJob }

/-- A polling oracle whose clock is already past the timeout. -/
def lateClockPollEnv : PollEnv :=
  { time := fun _ => 300001
    getJob := fun _ => .ok sampleJob }

/-- A polling oracle in which every `getJob` call throws. -/
def throwingPollEnv : PollEnv :=
  { time := fun _ => 0
    getJob := fun _ => .error "TypeError: Failed to fetch" }

/-- A polling oracle that always observes the failed job, within the
timeout. -/
def failedJobPollEnv : PollEnv :=
  { time := fun _ => 0
    getJob := fun _ => .ok failedJob }

/-- After the single refresh (`retryCount ≠ 0`) the load makes at most one
more fetch and no further `getJob` call. -/
theorem loadEvidence_counts_retried (env : HttpEnv) (job : JobResponse)
    (retryCount nF nJ : Nat) (h : retryCount ≠ 0) :
    (loadEvidenceWithRefresh env job retryCount nF nJ).2.1 ≤ nF + 1 ∧
    (loadEvidenceWithRefresh env job retryCount nF nJ).2.2 ≤ nJ := by
  rw [loadEvidenceWithRefresh]
  dsimp only
  split_ifs with h1 h2 h3
  · simp
  · exact absurd h3.2 h
  · simp
  · simp

/-- A call to `loadEvidenceWithRefresh` with `retryCount = 0` performs at most
two fetches and at most one `getJob` refresh. -/
theorem loadEvidence_counts (env : HttpEnv) (job : JobResponse) (nF nJ : Nat) :
    (loadEvidenceWithRefresh env job 0 nF nJ).2.1 ≤ nF + 2 ∧
    (loadEvidenceWithRefresh env job 0 nF nJ).2.2 ≤ nJ + 1 := by
  rw [loadEvidenceWithRefresh]
  dsimp only
  split_ifs with h1 h2 h3
  · simp
  · cases hj : env.getJob nJ job.id with
    | error e => simp
    | ok refreshedJob =>
        have hr := loadEvidence_counts_retried env refreshedJob 1 (nF + 1) (nJ + 1)
          (by omega)
        simpa using ⟨by omega, by omega⟩
  · simp
  · simp

/-- With every fetch answering a non-ok 403, a retried load (`retryCount ≠ 0`)
fails without any further refresh. -/
theorem loadEvidence_all403_retried (env : HttpEnv) (job : JobResponse)
    (retryCount nF nJ : Nat) (h : retryCount ≠ 0)
    (h403 : ∀ n u, (env.fetch n u).ok = false ∧ (env.fetch n u).status = 403) :
    ∃ e, (loadEvidenceWithRefresh env job retryCount nF nJ).1 = .error e := by
  rw [loadEvidenceWithRefresh]
  dsimp only
  split_ifs with h1 h2 h3
  · exact ⟨_, rfl⟩
  · exact absurd h3.2 h
  · exact ⟨_, rfl⟩
  · exact absurd (h403 _ _).1 h2

/-- With every fetch answering a non-ok 403, `loadEvidenceWithRefresh` fails
with an error (the second consecutive 403 is fatal). -/
theorem loadEvidence_all403_error (env : HttpEnv) (job : JobResponse) (nF nJ : Nat)
    (h403 : ∀ n u, (env.fetch n u).ok = false ∧ (env.fetch n u).status = 403) :
    ∃ e, (loadEvidenceWithRefresh env job 0 nF nJ).1 = .error e := by
  rw [loadEvidenceWithRefresh]
  dsimp only
  split_ifs with h1 h2 h3
  · exact ⟨_, rfl⟩
  · cases hj : env.getJob nJ job.id with
    | error e => simp
    | ok refreshedJob =>
        simpa using loadEvidence_all403_retried env refreshedJob 1 (nF + 1) (nJ + 1)
          (by omega) h403
  · exact absurd ⟨(h403 _ _).2, rfl⟩ h3
  · exact absurd (h403 _ _).1 h2

/-- C2: the numeric codes 0 and 1 map to "Uploaded", 2 to "Extracting", 3 to
"Extracted", 4 to "Generating", 5 to "Done", 6 and every other integer to
"Failed", and every string input is returned unchanged. -/
theorem c2_mapStatusCode_normalization :
    (∀ s : String, mapStatusCode (.str s) = s) ∧
    mapStatusCode (.num 0) = "Uploaded" ∧
    mapStatusCode (.num 1) = "Uploaded" ∧
    mapStatusCode (.num 2) = "Extracting" ∧
    mapStatusCode (.num 3) = "Extracted" ∧
    mapStatusCode (.num 4) = "Generating" ∧
    mapStatusCode (.num 5) = "Done" ∧
    mapStatusCode (.num 6) = "Failed" ∧
    (∀ n : Int, n ≠ 0 → n ≠ 1 → n ≠ 2 → n ≠ 3 → n ≠ 4 → n ≠ 5 →
      mapStatusCode (.num n) = "Failed") := by
  refine ⟨fun s => rfl, rfl, rfl, rfl, rfl, rfl, rfl, rfl, ?_⟩
  intro n h0 h1 h2 h3 h4 h5
  simp [mapStatusCode, h0, h1, h2, h3, h4, h5]

/-- Witness for C2 at the concrete unrecognized code 42. -/
theorem c2_mapStatusCode_normalization_witness :
    mapStatusCode (.num 42) = "Failed" :=
  c2_mapStatusCode_normalization.2.2.2.2.2.2.2.2 42
    (by decide) (by decide) (by decide) (by decide) (by decide) (by decide)

/-- `saveEvidence` performs at most two PUTs and at most one `getJob`
refresh. -/
theorem saveEvidence_counts (env : HttpEnv) (jobId writeUrl content : String)
    (nF nJ : Nat) :
    (saveEvidence env jobId writeUrl content nF nJ).2.1 ≤ nF + 2 ∧
    (saveEvidence env jobId writeUrl content nF nJ).2.2 ≤ nJ + 1 := by
  rw [saveEvidence]
  dsimp only
  by_cases h1 : (env.fetch nF writeUrl).ok = false
  · rw [if_pos h1]
    by_cases h2 : (env.fetch nF writeUrl).status = 403
    · rw [if_pos h2]
      cases hj : env.getJob nJ jobId with
      | error e => exact ⟨by simp <;> omega, by simp <;> omega⟩
      | ok refreshedJob =>
          dsimp only
          by_cases h3 : jsStrTruthy refreshedJob.evidenceWriteUrl = false
          · rw [if_pos h3]; exact ⟨by simp <;> omega, by simp <;> omega⟩
          · rw [if_neg h3]
            by_cases h4 : (env.fetch (nF + 1) (refreshedJob.evidenceWriteUrl.getD "")).ok = false
            · rw [if_pos h4]; exact ⟨by simp <;> omega, by simp <;> omega⟩
            · rw [if_neg h4]; exact ⟨by simp <;> omega, by simp <;> omega⟩
    · rw [if_neg h2]; exact ⟨by simp <;> omega, by simp <;> omega⟩
  · rw [if_neg h1]; exact ⟨by simp <;> omega, by simp <;> omega⟩

/-- With every fetch answering a non-ok 403, `saveEvidence` fails with an
error (the retried PUT also gets 403). -/
theorem saveEvidence_all403_error (env : HttpEnv) (jobId writeUrl content : String)
    (nF nJ : Nat)
    (h403 : ∀ n u, (env.fetch n u).ok = false ∧ (env.fetch n u).status = 403) :
    ∃ e, (saveEvidence env jobId writeUrl content nF nJ).1 = .error e := by
  rw [saveEvidence]
  dsimp only
  rw [if_pos (h403 nF writeUrl).1, if_pos (h403 nF writeUrl).2]
  cases hj : env.getJob nJ jobId with
  | error e => exact ⟨e, rfl⟩
  | ok refreshedJob =>
      dsimp only
      by_cases h3 : jsStrTruthy refreshedJob.evidenceWriteUrl = false
      · rw [if_pos h3]; exact ⟨_, rfl⟩
      · rw [if_neg h3, if_pos (h403 (nF + 1) _).1]; exact ⟨_, rfl⟩

/-- After the single refresh (`retryCount ≠ 0`) the download makes at most
one more fetch and no further `getJob` call. -/
theorem downloadFile_counts_retried (env : HttpEnv) (stateStep stateJobId : String)
    (jobData : Option JobResponse) (url : Option String) (filename : String)
    (retryCount nF nJ : Nat) (h : retryCount ≠ 0) :
    (downloadFile env stateStep stateJobId jobData url filename retryCount nF nJ).2.1 ≤ nF + 1 ∧
    (downloadFile env stateStep stateJobId jobData url filename retryCount nF nJ).2.2 ≤ nJ := by
  rw [downloadFile]
  dsimp only
  by_cases h1 : jsStrTruthy url = false
  · rw [if_pos h1]; exact ⟨by simp <;> omega, by simp <;> omega⟩
  · rw [if_neg h1]
    by_cases h2 : (env.fetch nF (url.getD "")).ok = false
    · rw [if_pos h2, dif_neg (fun hc => h hc.2.1)]
      exact ⟨by simp <;> omega, by simp <;> omega⟩
    · rw [if_neg h2]; exact ⟨by simp <;> omega, by simp <;> omega⟩

/-- A call to `downloadFile` with `retryCount = 0` performs at most two
fetches and at most one `getJob` refresh. -/
theorem downloadFile_counts (env : HttpEnv) (stateStep stateJobId : String)
    (jobData : Option JobResponse) (url : Option String) (filename : String)
    (nF nJ : Nat) :
    (downloadFile env stateStep stateJobId jobData url filename 0 nF nJ).2.1 ≤ nF + 2 ∧
    (downloadFile env stateStep stateJobId jobData url filename 0 nF nJ).2.2 ≤ nJ + 1 := by
  rw [downloadFile]
  dsimp only
  by_cases h1 : jsStrTruthy url = false
  · rw [if_pos h1]; exact ⟨by simp <;> omega, by simp <;> omega⟩
  · rw [if_neg h1]
    by_cases h2 : (env.fetch nF (url.getD "")).ok = false
    · rw [if_pos h2]
      by_cases h3 : (env.fetch nF (url.getD "")).status = 403 ∧ 0 = 0 ∧ stateStep = "done"
      · rw [dif_pos h3]
        cases hj : env.getJob nJ stateJobId with
        | error e => exact ⟨by simp <;> omega, by simp <;> omega⟩
        | ok refreshedJob =>
            dsimp only
            by_cases h4 : jsStrTruthy
              (if url = jobData.bind (fun j => j.resultJsonUrl) then refreshedJob.resultJsonUrl
               else if url = jobData.bind (fun j => j.fullDecoderUrl) then refreshedJob.fullDecoderUrl
               else refreshedJob.consoleDecoderUrl) = true
            · rw [if_pos h4]
              have hr := downloadFile_counts_retried env stateStep stateJobId jobData
                (if url = jobData.bind (fun j => j.resultJsonUrl) then refreshedJob.resultJsonUrl
                 else if url = jobData.bind (fun j => j.fullDecoderUrl) then refreshedJob.fullDecoderUrl
                 else refreshedJob.consoleDecoderUrl)
                filename (0 + 1) (nF + 1) (nJ + 1) (by omega)
              exact ⟨by omega, by omega⟩
            · rw [if_neg h4]; exact ⟨by simp <;> omega, by simp <;> omega⟩
      · rw [dif_neg h3]; exact ⟨by simp <;> omega, by simp <;> omega⟩
    · rw [if_neg h2]; exact ⟨by simp <;> omega, by simp <;> omega⟩

/-- With every fetch answering a non-ok 403, a retried download
(`retryCount ≠ 0`) on a present URL ends in the catch branch. -/
theorem downloadFile_all403_retried (env : HttpEnv) (stateStep stateJobId : String)
    (jobData : Option JobResponse) (url : Option String) (filename : String)
    (retryCount nF nJ : Nat) (h : retryCount ≠ 0) (hu : jsStrTruthy url = true)
    (h403 : ∀ n u, (env.fetch n u).ok = false ∧ (env.fetch n u).status = 403) :
    ∃ e, (downloadFile env stateStep stateJobId jobData url filename retryCount nF nJ).1 =
      .caught e := by
  rw [downloadFile]
  dsimp only
  rw [if_neg (by simp [hu]), if_pos (h403 nF _).1, dif_neg (fun hc => h hc.2.1)]
  exact ⟨_, rfl⟩

/-- With every fetch answering a non-ok 403, `downloadFile` on a present URL
ends in the catch branch (the retried download also gets 403). -/
theorem downloadFile_all403_error (env : HttpEnv) (stateStep stateJobId : String)
    (jobData : Option JobResponse) (url : Option String) (filename : String)
    (nF nJ : Nat) (hu : jsStrTruthy url = true)
    (h403 : ∀ n u, (env.fetch n u).ok = false ∧ (env.fetch n u).status = 403) :
    ∃ e, (downloadFile env stateStep stateJobId jobData url filename 0 nF nJ).1 = .caught e := by
  rw [downloadFile]
  dsimp only
  rw [if_neg (by simp [hu]), if_pos (h403 nF _).1]
  by_cases h3 : (env.fetch nF (url.getD "")).status = 403 ∧ 0 = 0 ∧ stateStep = "done"
  · rw [dif_pos h3]
    cases hj : env.getJob nJ stateJobId with
    | error e => exact ⟨e, rfl⟩
    | ok refreshedJob =>
        dsimp only
        by_cases h4 : jsStrTruthy
          (if url = jobData.bind (fun j => j.resultJsonUrl) then refreshedJob.resultJsonUrl
           else if url = jobData.bind (fun j => j.fullDecoderUrl) then refreshedJob.fullDecoderUrl
           else refreshedJob.consoleDecoderUrl) = true
        · rw [if_pos h4]
          exact downloadFile_all403_retried env stateStep stateJobId jobData
            (if url = jobData.bind (fun j => j.resultJsonUrl) then refreshedJob.resultJsonUrl
             else if url = jobData.bind (fun j => j.fullDecoderUrl) then refreshedJob.fullDecoderUrl
             else refreshedJob.consoleDecoderUrl)
            filename (0 + 1) (nF + 1) (nJ + 1) (by omega) h4 h403
        · rw [if_neg h4]; exact ⟨_, rfl⟩
  · rw [dif_neg h3]; exact ⟨_, rfl⟩

/-- C3: every evidence-read, evidence-write and artifact-download operation
performs at most one refresh-and-retry after an HTTP 403 (at most two fetches
and one `getJob` per call), and when the retried request also answers 403 the
operation fails with an error instead of retrying further or looping. -/
theorem c3_sas_refresh_retry_bound (env : HttpEnv) (job : JobResponse)
    (jobId writeUrl content stateStep stateJobId filename : String)
    (jobData : Option JobResponse) (url : Option String) (nF nJ : Nat) :
    ((loadEvidenceWithRefresh env job 0 nF nJ).2.1 ≤ nF + 2 ∧
     (loadEvidenceWithRefresh env job 0 nF nJ).2.2 ≤ nJ + 1) ∧
    ((saveEvidence env jobId writeUrl content nF nJ).2.1 ≤ nF + 2 ∧
     (saveEvidence env jobId writeUrl content nF nJ).2.2 ≤ nJ + 1) ∧
    ((downloadFile env stateStep stateJobId jobData url filename 0 nF nJ).2.1 ≤ nF + 2 ∧
     (downloadFile env stateStep stateJobId jobData url filename 0 nF nJ).2.2 ≤ nJ + 1) ∧
    ((∀ n u, (env.fetch n u).ok = false ∧ (env.fetch n u).status = 403) →
      (∃ e, (loadEvidenceWithRefresh env job 0 nF nJ).1 = .error e) ∧
      (∃ e, (saveEvidence env jobId writeUrl content nF nJ).1 = .error e) ∧
      (jsStrTruthy url = true →
        ∃ e, (downloadFile env stateStep stateJobId jobData url filename 0 nF nJ).1 =
          .caught e)) :=
  ⟨loadEvidence_counts env job nF nJ,
   saveEvidence_counts env jobId writeUrl content nF nJ,
   downloadFile_counts env stateStep stateJobId jobData url filename nF nJ,
   fun h403 =>
     ⟨loadEvidence_all403_error env job nF nJ h403,
      saveEvidence_all403_error env jobId writeUrl content nF nJ h403,
      fun hu =>
        downloadFile_all403_error env stateStep stateJobId jobData url filename nF nJ hu h403⟩⟩

/-- Witness for C3 on a network that always answers 403. -/
theorem c3_sas_refresh_retry_bound_witness :
    ((loadEvidenceWithRefresh allForbiddenEnv sampleJob 0 0 0).2.1 ≤ 0 + 2 ∧
     (loadEvidenceWithRefresh allForbiddenEnv sampleJob 0 0 0).2.2 ≤ 0 + 1) ∧
    (∃ e, (loadEvidenceWithRefresh allForbiddenEnv sampleJob 0 0 0).1 = .error e) ∧
    (∃ e, (saveEvidence allForbiddenEnv "job-1" "https://blob/evidence.md?sig=2" "text" 0 0).1 =
      .error e) ∧
    (∃ e, (downloadFile allForbiddenEnv "done" "job-1" (some sampleJob)
      sampleJob.resultJsonUrl "result.json" 0 0 0).1 = .caught e) := by
  have h := c3_sas_refresh_retry_bound allForbiddenEnv sampleJob "job-1"
    "https://blob/evidence.md?sig=2" "text" "done" "job-1" "result.json"
    (some sampleJob) sampleJob.resultJsonUrl 0 0
  have h403 : ∀ n u, (allForbiddenEnv.fetch n u).ok = false ∧
      (allForbiddenEnv.fetch n u).status = 403 := fun n u => ⟨rfl, rfl⟩
  exact ⟨h.1, (h.2.2.2 h403).1, (h.2.2.2 h403).2.1, (h.2.2.2 h403).2.2 rfl⟩

/-- C4: whenever `pollJobUntil` (timeout 300000 ms) rejects at the timeout
check, some observed tick had elapsed time strictly greater than 300000 ms —
it never rejects with the timeout error while elapsed time is at or below
300000 ms. -/
theorem c4_poll_timeout_lower_bound (env : PollEnv) (condition : JobResponse → Bool)
    (startTime fuel k : Nat)
    (h : pollJobUntil env condition 300000 startTime fuel k = .timeoutRejected) :
    ∃ j, k ≤ j ∧ 300000 < env.time j - startTime := by
  induction fuel generalizing k with
  | zero => exact absurd h (by simp [pollJobUntil])
  | succ fuel ih =>
      rw [pollJobUntil] at h
      by_cases ht : env.time k - startTime > 300000
      · exact ⟨k, le_refl k, ht⟩
      · rw [if_neg ht] at h
        cases hj : env.getJob k with
        | error e => rw [hj] at h; exact absurd h (by simp)
        | ok job =>
            rw [hj] at h
            dsimp only at h
            by_cases hc : condition job = true
            · rw [if_pos hc] at h; exact absurd h (by simp)
            · rw [if_neg hc] at h
              by_cases hf : job.status = "Failed" ∨ jsStrTruthy job.error
              · rw [if_pos hf] at h; exact absurd h (by simp)
              · rw [if_neg hf] at h
                obtain ⟨j, hkj, hgt⟩ := ih (k + 1) h
                exact ⟨j, by omega, hgt⟩

/-- Witness for C4: with a clock already past the timeout the loop rejects at
the timeout site, and the theorem yields the exceeding tick. -/
theorem c4_poll_timeout_lower_bound_witness :
    pollJobUntil lateClockPollEnv (fun _ => false) 300000 0 1 0 = .timeoutRejected ∧
    ∃ j, 0 ≤ j ∧ 300000 < lateClockPollEnv.time j - 0 :=
  ⟨rfl, c4_poll_timeout_lower_bound lateClockPollEnv (fun _ => false) 0 1 0 rfl⟩

/-- C5 counterexample: in `pollJobUntil` a thrown fetch exception is caught
and passed to `reject` — the promise is rejected on the first failing tick
(not left pending for the next scheduled tick), contradicting the claim that
a fetch exception never terminates or rejects the loop in the shared
helper. -/
theorem c5_counterexample :
    pollJobUntil throwingPollEnv (fun _ => false) 300000 0 2 0 =
      .errorRejected "TypeError: Failed to fetch" ∧
    PollResult.errorRejected "TypeError: Failed to fetch" ≠ PollResult.pending :=
  ⟨rfl, by decide⟩

/-- C5 (amended): a fetch exception inside a tick of the component-level
extraction polling loop is caught, logged, and the loop keeps polling; in the
shared `pollJobUntil` helper, however, a fetch exception rejects the returned
promise, terminating the poll. -/
theorem c5_fetch_exception_handling :
    (∀ (now startTime : Nat) (e : String) (loader : JobResponse → Except String String),
      now - startTime ≤ 300000 →
      extractionPollTick now startTime (.error e) loader = .keepPolling (some e)) ∧
    (∀ (env : PollEnv) (condition : JobResponse → Bool)
      (timeoutMs startTime fuel k : Nat) (e : String),
      env.time k - startTime ≤ timeoutMs → env.getJob k = .error e →
      pollJobUntil env condition timeoutMs startTime (fuel + 1) k = .errorRejected e) := by
  constructor
  · intro now startTime e loader hle
    rw [extractionPollTick, if_neg (by omega)]
  · intro env condition timeoutMs startTime fuel k e hle hj
    rw [pollJobUntil, if_neg (by omega), hj]

/-- Witness for C5 (amended) at a throwing network within the timeout. -/
theorem c5_fetch_exception_handling_witness :
    extractionPollTick 5 0 (.error "TypeError: Failed to fetch")
      (fun _ => .ok "text") = .keepPolling (some "TypeError: Failed to fetch") ∧
    pollJobUntil throwingPollEnv (fun _ => false) 300000 0 (0 + 1) 0 =
      .errorRejected "TypeError: Failed to fetch" :=
  ⟨c5_fetch_exception_handling.1 5 0 "TypeError: Failed to fetch" (fun _ => .ok "text")
      (by omega),
   c5_fetch_exception_handling.2 throwingPollEnv (fun _ => false) 300000 0 0 0
      "TypeError: Failed to fetch" (by decide) rfl⟩

/-- C10: `pollJobUntil` checks the caller's predicate before the failure
check — a tick whose job satisfies the predicate resolves the promise even if
that job is `Failed` or carries an error, and a failure rejection can only
come from an observation whose job falsifies the predicate. -/
theorem c10_predicate_before_failure :
    (∀ (env : PollEnv) (condition : JobResponse → Bool)
      (timeoutMs startTime fuel k : Nat) (job : JobResponse),
      env.time k - startTime ≤ timeoutMs → env.getJob k = .ok job → condition job = true →
      pollJobUntil env condition timeoutMs startTime (fuel + 1) k = .resolved job) ∧
    (∀ (env : PollEnv) (condition : JobResponse → Bool)
      (timeoutMs startTime fuel k : Nat) (msg : String),
      pollJobUntil env condition timeoutMs startTime fuel k = .failureRejected msg →
      ∃ j job, env.getJob j = .ok job ∧ condition job = false ∧
        (job.status = "Failed" ∨ jsStrTruthy job.error = true) ∧
        msg = (if jsStrTruthy job.error then job.error.getD "" else "Job failed")) := by
  constructor
  · intro env condition timeoutMs startTime fuel k job hle hj hc
    rw [pollJobUntil, if_neg (by omega), hj]
    dsimp only
    rw [if_pos hc]
  · intro env condition timeoutMs startTime fuel k msg h
    induction fuel generalizing k with
    | zero => exact absurd h (by simp [pollJobUntil])
    | succ fuel ih =>
        rw [pollJobUntil] at h
        by_cases ht : env.time k - startTime > timeoutMs
        · rw [if_pos ht] at h; exact absurd h (by simp)
        · rw [if_neg ht] at h
          cases hj : env.getJob k with
          | error e => rw [hj] at h; exact absurd h (by simp)
          | ok job =>
              rw [hj] at h
              dsimp only at h
              by_cases hc : condition job = true
              · rw [if_pos hc] at h; exact absurd h (by simp)
              · rw [if_neg hc] at h
                by_cases hf : job.status = "Failed" ∨ jsStrTruthy job.error
                · rw [if_pos hf] at h
                  refine ⟨k, job, hj, by simpa using hc, by simpa using hf, ?_⟩
                  simpa using h.symm
                · rw [if_neg hf] at h
                  exact ih (k + 1) h

/-- Witness for C10: a predicate that accepts the failed job resolves with
it, and a failure rejection exhibits a predicate-falsifying observation. -/
theorem c10_predicate_before_failure_witness :
    pollJobUntil failedJobPollEnv (fun _ => true) 300000 0 (0 + 1) 0 = .resolved failedJob ∧
    ∃ j job, failedJobPollEnv.getJob j = .ok job ∧ (fun _ => false) job = false ∧
      (job.status = "Failed" ∨ jsStrTruthy job.error = true) ∧
      "boom" = (if jsStrTruthy job.error then job.error.getD "" else "Job failed") :=
  ⟨c10_predicate_before_failure.1 failedJobPollEnv (fun _ => true) 300000 0 0 0 failedJob
      (by decide) rfl rfl,
   c10_predicate_before_failure.2 failedJobPollEnv (fun _ => false) 300000 0 1 0 "boom" rfl⟩

/-- The step list has eleven entries. -/
theorem WORKFLOW_STEPS_length : WORKFLOW_STEPS.length = 11 := rfl

/-- `goToStep` never moves the current index beyond the last step, and with
`markComplete` it keeps `currentIndex ≤ furthestCompletedIndex`. -/
theorem goToStep_markComplete_navInv (s : WorkflowState) (index : Int)
    (h : navInv s) : navInv (goToStep s index true) := by
  unfold goToStep navInv at *
  rw [WORKFLOW_STEPS_length] at *
  dsimp only
  split_ifs with h1 <;> (try simp_all) <;> omega

/-- Each observable navigation event preserves the invariant. -/
theorem applyNavEvent_navInv (s : WorkflowState) (e : NavEvent) (h : navInv s) :
    navInv (applyNavEvent s e) := by
  cases e with
  | complete target => exact goToStep_markComplete_navInv s _ h
  | next isProcessing =>
      unfold applyNavEvent goToNextStep goToStep navInv at *
      rw [WORKFLOW_STEPS_length] at *
      dsimp only
      split_ifs <;> (try simp_all) <;> omega
  | prev isProcessing =>
      unfold applyNavEvent goToPreviousStep goToStep navInv at *
      rw [WORKFLOW_STEPS_length] at *
      dsimp only
      split_ifs <;> (try simp_all) <;> omega
  | stepperClick i isProcessing =>
      unfold applyNavEvent goToStep navInv at *
      rw [WORKFLOW_STEPS_length] at *
      dsimp only
      split_ifs <;> (try simp_all) <;> omega

/-- The invariant holds after any event sequence from an invariant state. -/
theorem foldl_navInv (es : List NavEvent) (s : WorkflowState) (h : navInv s) :
    navInv (es.foldl applyNavEvent s) := by
  induction es generalizing s with
  | nil => exact h
  | cons e es ih => exact ih _ (applyNavEvent_navInv s e h)

/-- C1: along every sequence of successful step completions and navigation
events from the initial state,
`currentIndex ≤ furthestCompletedIndex ≤ lastStepIndex` holds at every
observable point, and an attempted forward navigation past the
furthest-completed step via `goToNextStep` leaves the state unchanged. -/
theorem c1_workflow_navigation_invariant :
    (∀ (manufacturer : String) (es : List NavEvent),
      navInv (runNavEvents manufacturer es)) ∧
    (∀ (s : WorkflowState) (isProcessing : Bool),
      s.furthestCompletedIndex ≤ s.currentIndex → goToNextStep s isProcessing = s) := by
  constructor
  · intro manufacturer es
    refine foldl_navInv es _ ?_
    exact ⟨Nat.zero_le _, Nat.zero_le _⟩
  · intro s isProcessing h
    unfold goToNextStep
    dsimp only
    split_ifs with h1 h2
    · exact absurd h2 (by omega)
    · rfl
    · rfl

/-- Witness for C1: a concrete completion run keeps the invariant, and
`goToNextStep` at the frontier is a no-op. -/
theorem c1_workflow_navigation_invariant_witness :
    navInv (runNavEvents "dragino"
      [NavEvent.complete "view_doc", NavEvent.complete "step2_rules",
       NavEvent.prev false, NavEvent.next false]) ∧
    goToNextStep (goToStep (initialWorkflowState "milesight") 5 true) false =
      goToStep (initialWorkflowState "milesight") 5 true :=
  ⟨c1_workflow_navigation_invariant.1 "dragino"
      [NavEvent.complete "view_doc", NavEvent.complete "step2_rules",
       NavEvent.prev false, NavEvent.next false],
   c1_workflow_navigation_invariant.2 (goToStep (initialWorkflowState "milesight") 5 true)
      false (by decide)⟩

/-- C6: from a state whose composite-spec, examples and feedback fields are
empty (as after selecting Dragino and acquiring the document), running
exactly the two Dragino generation calls with successful non-empty payloads
leaves those fields empty and populates the rules block and the decoder
code. -/
theorem c6_dragino_artifact_fields (s : WorkflowState) (r1 : DraginoRulesResult)
    (r2 : DraginoDecoderResult) (rb dc : String)
    (hman : s.manufacturer = "dragino")
    (hcs : s.compositeSpec = "") (hex : s.examplesTablesMd = "")
    (hfb : s.feedbackMarkdown = "")
    (hr1 : jsOrOpt r1.RulesBlock r1.rulesBlock = some rb) (hrb : rb ≠ "")
    (hr2 : jsOrOpt r2.DecoderCode r2.decoderCode = some dc) (hdc : dc ≠ "") :
    (runDraginoStep2GenerateDecoder (runDraginoStep1GenerateRules s r1) r2).compositeSpec
        = "" ∧
    (runDraginoStep2GenerateDecoder (runDraginoStep1GenerateRules s r1) r2).examplesTablesMd
        = "" ∧
    (runDraginoStep2GenerateDecoder (runDraginoStep1GenerateRules s r1) r2).feedbackMarkdown
        = "" ∧
    (runDraginoStep2GenerateDecoder (runDraginoStep1GenerateRules s r1) r2).rulesBlock = rb ∧
    (runDraginoStep2GenerateDecoder (runDraginoStep1GenerateRules s r1) r2).decoderCode = dc ∧
    (runDraginoStep2GenerateDecoder (runDraginoStep1GenerateRules s r1) r2).rulesBlock ≠ "" ∧
    (runDraginoStep2GenerateDecoder (runDraginoStep1GenerateRules s r1) r2).decoderCode
        ≠ "" := by
  unfold runDraginoStep1GenerateRules runDraginoStep2GenerateDecoder goToStep
  rw [hr1, hr2]
  simp_all

/-- Witness for C6 at a concrete post-extraction Dragino state. -/
theorem c6_dragino_artifact_fields_witness :
    (runDraginoStep2GenerateDecoder
      (runDraginoStep1GenerateRules
        { initialWorkflowState "dragino" with
            documentation := "datasheet text", currentIndex := 3,
            furthestCompletedIndex := 3 }
        { RulesBlock := some "RULES", rulesBlock := none })
      { DecoderCode := none, decoderCode := some "CODE" }).rulesBlock = "RULES" ∧
    (runDraginoStep2GenerateDecoder
      (runDraginoStep1GenerateRules
        { initialWorkflowState "dragino" with
            documentation := "datasheet text", currentIndex := 3,
            furthestCompletedIndex := 3 }
        { RulesBlock := some "RULES", rulesBlock := none })
      { DecoderCode := none, decoderCode := some "CODE" }).compositeSpec = "" :=
  have h := c6_dragino_artifact_fields
    { initialWorkflowState "dragino" with
        documentation := "datasheet text", currentIndex := 3, furthestCompletedIndex := 3 }
    { RulesBlock := some "RULES", rulesBlock := none }
    { DecoderCode := none, decoderCode := some "CODE" }
    "RULES" "CODE" rfl rfl rfl rfl rfl (by decide) rfl (by decide)
  ⟨h.2.2.2.1, h.1⟩

/-- C9: with decoder code present, a successful refinement overwrites only
the decoder-code and refinement-notes fields — navigation indices and every
other artifact field are unchanged — and re-invoking the refinement with the
same response is idempotent. -/
theorem c9_refine_frame_effect (s : WorkflowState) (result : RefineResult)
    (h : s.decoderCode ≠ "") :
    (refineDecoderWithFeedback s result).currentIndex = s.currentIndex ∧
    (refineDecoderWithFeedback s result).furthestCompletedIndex
        = s.furthestCompletedIndex ∧
    (refineDecoderWithFeedback s result).manufacturer = s.manufacturer ∧
    (refineDecoderWithFeedback s result).documentation = s.documentation ∧
    (refineDecoderWithFeedback s result).compositeSpec = s.compositeSpec ∧
    (refineDecoderWithFeedback s result).rulesBlock = s.rulesBlock ∧
    (refineDecoderWithFeedback s result).examplesTablesMd = s.examplesTablesMd ∧
    (refineDecoderWithFeedback s result).feedbackMarkdown = s.feedbackMarkdown ∧
    (refineDecoderWithFeedback s result).deviceProfile = s.deviceProfile ∧
    (refineDecoderWithFeedback s result).deviceName = s.deviceName ∧
    (refineDecoderWithFeedback s result).safeClassName = s.safeClassName ∧
    (refineDecoderWithFeedback s result).deviceFormat = s.deviceFormat ∧
    (refineDecoderWithFeedback s result).decoderCode =
      (jsOrOpt result.RefinedDecoderCode result.refinedDecoderCode).getD "" ∧
    (refineDecoderWithFeedback s result).refinementNotes =
      (jsOrOpt (jsOrOpt result.RefinementNotes result.refinementNotes) (some "")).getD "" ∧
    (∀ c, jsOrOpt result.RefinedDecoderCode result.refinedDecoderCode = some c → c ≠ "" →
      refineDecoderWithFeedback (refineDecoderWithFeedback s result) result =
        refineDecoderWithFeedback s result) := by
  unfold refineDecoderWithFeedback
  rw [if_neg h]
  refine ⟨rfl, rfl, rfl, rfl, rfl, rfl, rfl, rfl, rfl, rfl, rfl, rfl, rfl, rfl, ?_⟩
  intro c hc hne
  rw [if_neg (by simp [hc, hne])]

/-- Witness for C9 at a concrete state and refinement response. -/
theorem c9_refine_frame_effect_witness :
    (refineDecoderWithFeedback
      { initialWorkflowState "milesight" with
          decoderCode := "old code", rulesBlock := "RB", currentIndex := 8,
          furthestCompletedIndex := 8 }
      { RefinedDecoderCode := some "new code", refinedDecoderCode := none,
        RefinementNotes := some "notes", refinementNotes := none }).decoderCode
      = "new code" ∧
    (refineDecoderWithFeedback
      { initialWorkflowState "milesight" with
          decoderCode := "old code", rulesBlock := "RB", currentIndex := 8,
          furthestCompletedIndex := 8 }
      { RefinedDecoderCode := some "new code", refinedDecoderCode := none,
        RefinementNotes := some "notes", refinementNotes := none }).rulesBlock = "RB" :=
  have h := c9_refine_frame_effect
    { initialWorkflowState "milesight" with
        decoderCode := "old code", rulesBlock := "RB", currentIndex := 8,
        furthestCompletedIndex := 8 }
    { RefinedDecoderCode := some "new code", refinedDecoderCode := none,
      RefinementNotes := some "notes", refinementNotes := none }
    (by decide)
  ⟨(h.2.2.2.2.2.2.2.2.2.2.2.2.1).trans rfl, (h.2.2.2.2.2.1).trans rfl⟩

/-- C7: repairing the malformed input with bare keys and type placeholders
yields exactly the JSON text with quoted keys and example values, and that
text parses as a JSON object with exactly the keys `decoderName` (bound to
the example string) and `batteryLevel` (bound to the example numeric value
`0.0`). -/
theorem c7_json_repair_round_trip :
    fixMalformedJson "\x7bdecoderName: string, batteryLevel: double\x7d" =
      "\x7b\"decoderName\": \"example\", \"batteryLevel\": 0.0\x7d" ∧
    parseJson (fixMalformedJson "\x7bdecoderName: string, batteryLevel: double\x7d") =
      some (JsonVal.obj [("decoderName", JsonVal.str "example"),
                         ("batteryLevel", JsonVal.num 0 1 0)]) :=
  ⟨rfl, rfl⟩

/-- `normalizeNumbersGo` preserves the length of its input. -/
theorem normalizeNumbersGo_length (l : List Char) :
    (normalizeNumbersGo l).length = l.length := by
  induction l using normalizeNumbersGo.induct with
  | case1 a b c rest hcond ih => rw [normalizeNumbersGo, if_pos hcond]; simp [ih]
  | case2 a b c rest hcond ih => rw [normalizeNumbersGo, if_neg hcond]; simpa using ih
  | case3 a rest hshort ih =>
      cases rest with
      | nil => rfl
      | cons b rest2 =>
          cases rest2 with
          | nil =>
              rw [show normalizeNumbersGo [a, b] = a :: normalizeNumbersGo [b] from rfl]
              simpa using ih
          | cons c rest3 => exact absurd rfl (hshort b c rest3)
  | case4 => rfl

/-- Any position changed by `normalizeNumbersGo` was a comma whose immediate
neighbours in the input are digits, and it became a period. -/
theorem normalizeNumbersGo_pointwise (l : List Char) : ∀ i : Nat,
    (normalizeNumbersGo l).get? i ≠ l.get? i →
    l.get? i = some ',' ∧ (normalizeNumbersGo l).get? i = some '.' ∧ 1 ≤ i ∧
    (∃ a, l.get? (i - 1) = some a ∧ '0' ≤ a ∧ a ≤ '9') ∧
    (∃ d, l.get? (i + 1) = some d ∧ '0' ≤ d ∧ d ≤ '9') := by
  induction l using normalizeNumbersGo.induct with
  | case1 a b c rest hcond ih =>
      intro i h
      have eq1 : normalizeNumbersGo (a :: b :: c :: rest) =
          a :: '.' :: c :: normalizeNumbersGo rest := by
        rw [normalizeNumbersGo, if_pos hcond]
      obtain ⟨ha, hb, hc⟩ := hcond
      rw [eq1] at h ⊢
      match i with
      | 0 => simp at h
      | 1 =>
          subst hb
          exact ⟨by simp, by simp, by omega, ⟨a, by simp, ha⟩, ⟨c, by simp, hc⟩⟩
      | 2 => simp at h
      | (j + 3) =>
          have h2 : (normalizeNumbersGo rest).get? j ≠ rest.get? j := by
            simpa using h
          obtain ⟨p1, p2, p3, ⟨a1, pa1, pa2⟩, ⟨d1, pd1, pd2⟩⟩ := ih j h2
          match j, p3 with
          | (j1 + 1), _ =>
              refine ⟨by simpa using p1, by simpa using p2, by omega,
                ⟨a1, ?_, pa2⟩, ⟨d1, by simpa using pd1, pd2⟩⟩
              show (a :: b :: c :: rest).get? (j1 + 3) = some a1
              simpa using pa1
  | case2 a b c rest hcond ih =>
      intro i h
      have eq1 : normalizeNumbersGo (a :: b :: c :: rest) =
          a :: normalizeNumbersGo (b :: c :: rest) := by
        rw [normalizeNumbersGo, if_neg hcond]
      rw [eq1] at h ⊢
      match i with
      | 0 => simp at h
      | (j + 1) =>
          have h2 : (normalizeNumbersGo (b :: c :: rest)).get? j ≠
              (b :: c :: rest).get? j := by simpa using h
          obtain ⟨p1, p2, p3, ⟨a1, pa1, pa2⟩, ⟨d1, pd1, pd2⟩⟩ := ih j h2
          match j, p3 with
          | (j1 + 1), _ =>
              refine ⟨by simpa using p1, by simpa using p2, by omega,
                ⟨a1, ?_, pa2⟩, ⟨d1, by simpa using pd1, pd2⟩⟩
              show (a :: b :: c :: rest).get? (j1 + 1) = some a1
              simpa using pa1
  | case3 a rest hshort ih =>
      intro i h
      cases rest with
      | nil => exact absurd rfl h
      | cons b rest2 =>
          cases rest2 with
          | nil => exact absurd rfl h
          | cons c rest3 => exact absurd rfl (hshort b c rest3)
  | case4 =>
      intro i h
      exact absurd rfl h

/-- C8 counterexample: the claim "rewrites every digit-comma-digit occurrence"
fails on `"1,2,3"` — the first match consumes the digit `2`, so the second
digit-comma-digit occurrence `2,3` keeps its comma, unlike the
claim-described rewrite of every occurrence. -/
theorem c8_number_localization_counterexample :
    normalizeNumbers "1,2,3" = "1.2,3" ∧
    claimNormalizeEveryOccurrence "1,2,3" = "1.2.3" ∧
    normalizeNumbers "1,2,3" ≠ claimNormalizeEveryOccurrence "1,2,3" :=
  ⟨rfl, rfl, by decide⟩

/-- C8 (amended): the localization replaces commas with periods only when
both immediate neighbours are digits, changes nothing else (in particular no
comma outside two digits and no other character), and rewrites
digit-comma-digit matches left to right without overlap — a digit consumed by
a previous match cannot anchor the next one, so `"1,2,3"` becomes `"1.2,3"`
while `"35,0"` in context still becomes `"35.0"`. -/
theorem c8_number_localization_amended :
    (∀ (l : List Char) (i : Nat),
      (normalizeNumbersGo l).get? i ≠ l.get? i →
      l.get? i = some ',' ∧ (normalizeNumbersGo l).get? i = some '.' ∧ 1 ≤ i ∧
      (∃ a, l.get? (i - 1) = some a ∧ '0' ≤ a ∧ a ≤ '9') ∧
      (∃ d, l.get? (i + 1) = some d ∧ '0' ≤ d ∧ d ≤ '9')) ∧
    (∀ s : String, (normalizeNumbers s).length = s.length) ∧
    normalizeNumbers "temp: 35,0 (ok)" = "temp: 35.0 (ok)" ∧
    normalizeNumbers "1,2,3" = "1.2,3" ∧
    normalizeNumbers "a, b, c [x, y]" = "a, b, c [x, y]" := by
  refine ⟨normalizeNumbersGo_pointwise, ?_, rfl, rfl, rfl⟩
  intro s
  show (normalizeNumbersGo s.toList).length = s.length
  rw [normalizeNumbersGo_length]
  rfl

/-- Witness for C8 (amended) at the concrete input `"1,2"`, position 1. -/
theorem c8_number_localization_amended_witness :
    ("1,2".toList.get? 1 = some ',' ∧
      (normalizeNumbersGo "1,2".toList).get? 1 = some '.' ∧ 1 ≤ 1 ∧
      (∃ a, "1,2".toList.get? (1 - 1) = some a ∧ '0' ≤ a ∧ a ≤ '9') ∧
      (∃ d, "1,2".toList.get? (1 + 1) = some d ∧ '0' ≤ d ∧ d ≤ '9')) ∧
    (normalizeNumbers "abc,def").length = "abc,def".length :=
  ⟨c8_number_localization_amended.1 "1,2".toList 1 (by decide),
   c8_number_localization_amended.2.1 "abc,def"⟩
